import Mathlib

/-!
Verification of the low-level system layer of `kwant` (`src/kwant/system.py`)
against its natural-language specification.  Python functions are shallowly
embedded as executable Lean definitions; machine arithmetic plays no role in
the verified fragment, so integers are modelled by `Int` and sizes by `Nat`.
Fallible Python code (code that may raise) is modelled with `Except`.
-/

namespace KwantSystem

/-! ### Symmetry.in_fd (src/kwant/system.py lines 369-393)

A group element is a vector of integer coordinates (`which` returns one
tuple per site).  The `Site` branch of `in_fd` loops over the coordinates
and returns `False` on the first nonzero one:

    for d in self.which(site):
        if d != 0:
            return False
    return True

The `SiteArray` branch computes, per row of the 2-D `which` output,

    np.logical_and.reduce(which != 0, axis=1)

i.e. the logical AND over the row of the elementwise test `coordinate != 0`.
-/

/-- Embedding of the `Site` branch of `Symmetry.in_fd`: true iff every
coordinate of the group element `which(site)` is zero. -/
def in_fd_site (which : List Int) : Bool :=
  which.all (fun d => d == 0)

/-- Embedding of the `SiteArray` branch of `Symmetry.in_fd`: per row of the
2-D array `which(site_array)`, the source computes
`np.logical_and.reduce(which != 0, axis=1)`, the AND over the row of the
elementwise comparison `!= 0`. -/
def in_fd_array (which : List (List Int)) : List Bool :=
  which.map (fun row => row.all (fun d => !(d == 0)))

/-- A row of `which` output is the identity group element iff all its
coordinates are zero (the notion used by the spec and by the `Site` branch). -/
def isIdentityElement (row : List Int) : Bool :=
  row.all (fun d => d == 0)

/-! ### NoSymmetry.subgroup (src/kwant/system.py lines 446-449)

    def subgroup(self, *generators):
        if any(generators):
            raise ValueError('Generators must be empty for NoSymmetry.')
        return NoSymmetry(generators)

`NoSymmetry` defines neither `__init__` nor `__new__`, so constructing it
with any positional argument raises `TypeError` (Python `object` accepts no
constructor arguments).  Generators are modelled by their truthiness. -/

/-- Python errors relevant to this layer. -/
inductive PyError where
  | valueError (msg : String)
  | typeError (msg : String)
  deriving Repr, DecidableEq

/-- Embedding of the call `NoSymmetry(*args)`: the class overrides neither
`__init__` nor `__new__`, so Python raises `TypeError` whenever the number of
positional constructor arguments is nonzero. -/
def NoSymmetryCtor (numArgs : Nat) : Except PyError Unit :=
  if numArgs ≠ 0 then
    .error (.typeError "NoSymmetry() takes no arguments")
  else
    .ok ()

/-- Embedding of `NoSymmetry.subgroup(*generators)`.  Each generator is
represented by its truthiness.  The final line of the source,
`return NoSymmetry(generators)`, passes the generators tuple as one
positional argument to the constructor. -/
def noSymmetry_subgroup (generators : List Bool) : Except PyError Unit :=
  if generators.any id then
    .error (.valueError "Generators must be empty for NoSymmetry.")
  else
    NoSymmetryCtor 1

/-! ### PrecalculatedLead (src/kwant/system.py lines 1028-1067)

Modes results and self-energies are opaque values produced by external
numerical routines; they are modelled by natural-number tokens. -/

/-- Token for an opaque modes result `(PropagatingModes, StabilizedModes)`. -/
abbrev ModesResult := Nat

/-- Token for an opaque self-energy matrix. -/
abbrev SelfEnergy := Nat

/-- Embedding of the `PrecalculatedLead` instance state: the two frozen
values and the `parameters` attribute (a frozenset of parameter names). -/
structure PrecalcLead where
  _modes : Option ModesResult
  _selfenergy : Option SelfEnergy
  parameters : List String
  deriving Repr, DecidableEq

/-- Embedding of `PrecalculatedLead.__init__`: raises when both values are
absent, otherwise stores them and sets `parameters` to the empty frozenset. -/
def mkPrecalculatedLead (modes : Option ModesResult)
    (selfenergy : Option SelfEnergy) : Except PyError PrecalcLead :=
  if modes = none ∧ selfenergy = none then
    .error (.valueError "No precalculated values provided.")
  else
    .ok { _modes := modes, _selfenergy := selfenergy, parameters := [] }

/-- Error message of `PrecalculatedLead.modes` when no modes are stored. -/
def noModesMsg : String :=
  "No precalculated modes were provided. Consider using precalculate() with what=\x27modes\x27 or what=\x27all\x27"

/-- Error message of `PrecalculatedLead.selfenergy` when no self-energy is stored. -/
def noSelfenergyMsg : String :=
  "No precalculated selfenergy was provided. Consider using precalculate() with what=\x27selfenergy\x27 or what=\x27all\x27"

/-- Embedding of `PrecalculatedLead.modes(energy, args, params)`: the
arguments are ignored; the frozen value is returned if present. -/
def PrecalcLead.modesAcc (p : PrecalcLead) (energy : Int)
    (params : List (String × Int)) : Except PyError ModesResult :=
  match p._modes with
  | some m => .ok m
  | none => .error (.valueError noModesMsg)

/-- Embedding of `PrecalculatedLead.selfenergy(energy, args, params)`: the
arguments are ignored; the frozen value is returned if present. -/
def PrecalcLead.selfenergyAcc (p : PrecalcLead) (energy : Int)
    (params : List (String × Int)) : Except PyError SelfEnergy :=
  match p._selfenergy with
  | some s => .ok s
  | none => .error (.valueError noSelfenergyMsg)

/-! ### InfiniteVectorizedSystem.hamiltonian_submatrix (src/kwant/system.py lines 965-970)

    def hamiltonian_submatrix(self, args=(), sparse=False,
                              return_norb=False, *, params=None):
        raise ValueError(
            "'hamiltonian_submatrix' is not meaningful for infinite"
            "systems. Use 'cell_hamiltonian' or 'inter_cell_hopping."
        )

The two adjacent string literals are concatenated by Python without a space,
which the embedding reproduces. -/

/-- Error message raised by `InfiniteVectorizedSystem.hamiltonian_submatrix`
(the missing space before "systems" is present in the source). -/
def infiniteSubmatrixMsg : String :=
  "\x27hamiltonian_submatrix\x27 is not meaningful for infinitesystems. Use \x27cell_hamiltonian\x27 or \x27inter_cell_hopping."

/-- Embedding of `InfiniteVectorizedSystem.hamiltonian_submatrix`: the body
unconditionally raises `ValueError`, for every combination of arguments. -/
def infiniteVectorized_hamiltonian_submatrix (args : List Int) (sparse : Bool)
    (return_norb : Bool) (params : Option (List (String × Int))) :
    Except PyError (List (List Int)) :=
  .error (.valueError infiniteSubmatrixMsg)

/-! ### _normalize_matrix_blocks (src/kwant/system.py lines 985-1024)

The input of `_normalize_matrix_blocks` is the result of
`np.asarray(blocks, dtype=complex)`: a 0-D scalar, a 1-D vector, a 2-D
matrix, or a 3-D array (rectangular by construction, since `np.asarray`
rejects ragged input).  The embedding represents these four cases with an
inductive type over `Int` entries. -/

/-- Possible shapes of the `np.asarray` result consumed by
`_normalize_matrix_blocks`. -/
inductive NpInput where
  | scalar (x : Int)
  | vec (xs : List Int)
  | mat (rows : List (List Int))
  | arr3 (t : List (List (List Int)))
  deriving Repr, DecidableEq

/-- Shape of a 3-D array represented as nested lists (for rectangular
arrays this is the numpy shape). -/
def t3shape (t : List (List (List Int))) : Nat × Nat × Nat :=
  (t.length, (t.headD []).length, ((t.headD []).headD []).length)

/-- Shape of a 2-D array represented as nested lists. -/
def mshape (m : List (List Int)) : Nat × Nat :=
  (m.length, (m.headD []).length)

/-- Rectangularity of a 2-D nested list (always true of `np.asarray` output). -/
def isRect2 (m : List (List Int)) : Bool :=
  m.all (fun row => row.length == (m.headD []).length)

/-- Rectangularity of a 3-D nested list (always true of `np.asarray` output). -/
def isRect3 (t : List (List (List Int))) : Bool :=
  t.all (fun m => isRect2 m && decide (mshape m = mshape (t.headD [])))

/-- Numpy rendering of a shape tuple, used in the error message. -/
def shape3Str (s : Nat × Nat × Nat) : String :=
  "(" ++ toString s.1 ++ ", " ++ toString s.2.1 ++ ", " ++ toString s.2.2 ++ ")"

/-- Numpy rendering of the original (pre-broadcast) shape of the input. -/
def origShapeStr (blocks : NpInput) : String :=
  match blocks with
  | .scalar _ => "()"
  | .vec xs => "(" ++ toString xs.length ++ ",)"
  | .mat m => "(" ++ toString (mshape m).1 ++ ", " ++ toString (mshape m).2 ++ ")"
  | .arr3 t => shape3Str (t3shape t)

/-- Embedding of the broadcasting step of `_normalize_matrix_blocks`:
a 0-D scalar is tiled into `expected_shape[0]` 1x1 blocks
(`np.tile(blocks, (expected_shape[0], 1, 1))`); a 1-D vector is reshaped
into 1x1 blocks (`blocks.reshape(-1, 1, 1)`); a 2-D matrix is tiled
`expected_shape[0]` times (`np.tile(blocks, (expected_shape[0], 1, 1))`);
a 3-D array is left as is, with `was_broadcast = False`.  Returns the
broadcast array together with the `was_broadcast` flag. -/
def broadcastBlocks (blocks : NpInput) (n : Nat) :
    List (List (List Int)) × Bool :=
  match blocks with
  | .scalar x => (List.replicate n [[x]], true)
  | .vec xs => (xs.map (fun x => [[x]]), true)
  | .mat m => (List.replicate n m, true)
  | .arr3 t => (t, false)

/-- Embedding of the first two pieces of the `ValueError` message built at
the end of `_normalize_matrix_blocks`, joined by single spaces as
`" ".join(msg)` does (the second piece is empty when the input was not
broadcast, leaving a double space, exactly as in the source). -/
def shapeErrPrefix (expected got : Nat × Nat × Nat) (orig : String)
    (wasBroadcast : Bool) : String :=
  "Expected values of shape " ++ shape3Str expected ++
    ", but received values of shape " ++ shape3Str got ++ " " ++
    (if wasBroadcast then "(broadcasted from shape " ++ orig ++ ")" else "") ++
    " "

/-- Embedding of the full `ValueError` message: the third joined piece names
the calling function when one was supplied and is empty otherwise. -/
def shapeErrMsg (expected got : Nat × Nat × Nat) (orig : String)
    (wasBroadcast : Bool) (calling_function : Option String) : String :=
  match calling_function with
  | some f => shapeErrPrefix expected got orig wasBroadcast ++
      "when evaluating " ++ f
  | none => shapeErrPrefix expected got orig wasBroadcast

/-- Embedding of `_normalize_matrix_blocks(blocks, expected_shape,
calling_function)`: broadcast according to the number of dimensions of the
input, then compare against `expected_shape` and raise a shape error on
mismatch. -/
def normalize_matrix_blocks (blocks : NpInput) (expected : Nat × Nat × Nat)
    (calling_function : Option String) :
    Except PyError (List (List (List Int))) :=
  let bw := broadcastBlocks blocks expected.1
  if t3shape bw.1 = expected then
    .ok bw.1
  else
    .error (.valueError (shapeErrMsg expected (t3shape bw.1)
      (origShapeStr blocks) bw.2 calling_function))

/-! ### FiniteSystemMixin.precalculate (src/kwant/system.py lines 679-741)

The leads' `modes`/`selfenergy` operations and the modes result's own
`selfenergy` method are external collaborators; their return values at the
requested energy are opaque tokens carried by the `Lead` record.  The
embedding additionally logs which lead operations the loop invokes, so that
delegation claims can be stated. -/

/-- A raw lead as consumed by `precalculate`: the value its `modes`
operation returns, the value its `selfenergy` operation returns, and the
value `modes[1].selfenergy()` derived from the modes result. -/
structure Lead where
  modesVal : ModesResult
  selfenergyVal : SelfEnergy
  modesDerivedSelfenergy : SelfEnergy
  deriving Repr, DecidableEq

/-- An operation invoked on a raw lead by the `precalculate` loop. -/
inductive LeadOp where
  | modesCall
  | selfenergyCall
  deriving Repr, DecidableEq

/-- Embedding of one iteration of the `precalculate` loop for a selected
lead: `modes` is computed when `what` is `'modes'` or `'all'`; then, when
`what` is `'selfenergy'` or `'all'`, the self-energy is taken from
`modes[1].selfenergy()` if `modes` is truthy (a modes result is a nonempty
tuple, hence truthy) and from the lead's own `selfenergy` operation
otherwise; finally `PrecalculatedLead(modes, selfenergy)` is constructed.
The second component lists the operations invoked on the raw lead. -/
def precalcLeadStep (what : String) (lead : Lead) :
    Except PyError (PrecalcLead × List LeadOp) :=
  let modesAndLog : Option ModesResult × List LeadOp :=
    if what = "modes" ∨ what = "all" then
      (some lead.modesVal, [LeadOp.modesCall])
    else (none, [])
  let seAndLog : Option SelfEnergy × List LeadOp :=
    if what = "selfenergy" ∨ what = "all" then
      match modesAndLog.1 with
      | some _ => (some lead.modesDerivedSelfenergy, [])
      | none => (some lead.selfenergyVal, [LeadOp.selfenergyCall])
    else (none, [])
  match mkPrecalculatedLead modesAndLog.1 seAndLog.1 with
  | .ok p => .ok (p, modesAndLog.2 ++ seAndLog.2)
  | .error e => .error e

/-- Embedding of the `for nr, lead in enumerate(self.leads)` loop of
`precalculate`: an unselected lead is appended to `new_leads` as the same
object (`Sum.inl`), a selected lead is replaced by the constructed
`PrecalculatedLead` (`Sum.inr`).  Invoked operations are logged with the
lead index. -/
def precalcLoop (what : String) (sel : List Nat) :
    Nat → List Lead →
    Except PyError (List (Lead ⊕ PrecalcLead) × List (Nat × LeadOp))
  | _, [] => .ok ([], [])
  | nr, lead :: rest =>
    if nr ∈ sel then
      match precalcLeadStep what lead with
      | .error e => .error e
      | .ok (p, ops) =>
        match precalcLoop what sel (nr + 1) rest with
        | .error e => .error e
        | .ok (tail, log) =>
          .ok (Sum.inr p :: tail, ops.map (fun o => (nr, o)) ++ log)
    else
      match precalcLoop what sel (nr + 1) rest with
      | .error e => .error e
      | .ok (tail, log) => .ok (Sum.inl lead :: tail, log)

/-- Embedding of the state of a finite system with leads that
`precalculate` touches: `graph`, `terms` and the site data are opaque
immutable values shared by reference, modelled as tokens so that reference
sharing is expressed as token equality. -/
structure FinSystem where
  graph : Nat
  terms : Nat
  siteData : Nat
  leads : List Lead
  deriving Repr, DecidableEq

/-- Result of `precalculate`: `result = copy(self)` is a shallow copy, so
every field of the result is the very object of the original, except
`leads`, which is rebound to the freshly built list. -/
structure PrecalcSystem where
  graph : Nat
  terms : Nat
  siteData : Nat
  leads : List (Lead ⊕ PrecalcLead)
  deriving Repr, DecidableEq

/-- Embedding of `FiniteSystemMixin.precalculate(energy, args, leads, what,
params)`: validate `what`, default the selection to all lead indices, run
the loop, and return the shallow copy with the new `leads` list together
with the log of lead operations invoked.  The original system is an input
value and is returned unmodified by construction. -/
def precalculate (syst : FinSystem) (energy : Int)
    (leadsSel : Option (List Nat)) (what : String) :
    Except PyError (PrecalcSystem × List (Nat × LeadOp)) :=
  if ¬(what = "modes" ∨ what = "selfenergy" ∨ what = "all") then
    .error (.valueError ("Invalid value of argument \x27what\x27: " ++ what))
  else
    let sel := leadsSel.getD (List.range syst.leads.length)
    match precalcLoop what sel 0 syst.leads with
    | .error e => .error e
    | .ok (newLeads, log) =>
      .ok ({ graph := syst.graph, terms := syst.terms,
             siteData := syst.siteData, leads := newLeads }, log)

/-- Pure counterpart of `precalcLoop` for a step function that never
raises; used to characterize the loop on the three valid `what` values. -/
def loopPure (f : Lead → PrecalcLead × List LeadOp) (sel : List Nat) :
    Nat → List Lead → List (Lead ⊕ PrecalcLead) × List (Nat × LeadOp)
  | _, [] => ([], [])
  | nr, lead :: rest =>
    let tl := loopPure f sel (nr + 1) rest
    if nr ∈ sel then
      (Sum.inr (f lead).1 :: tl.1, (f lead).2.map (fun o => (nr, o)) ++ tl.2)
    else
      (Sum.inl lead :: tl.1, tl.2)

/-- Decidable equality for `Except`, used to evaluate the embedded
functions on concrete inputs. -/
instance {e a : Type} [DecidableEq e] [DecidableEq a] :
    DecidableEq (Except e a) := fun x y =>
  match x, y with
  | .ok v, .ok w =>
    if h : v = w then isTrue (h ▸ rfl)
    else isFalse (fun hc => h (by injection hc))
  | .error v, .error w =>
    if h : v = w then isTrue (h ▸ rfl)
    else isFalse (fun hc => h (by injection hc))
  | .ok _, .error _ => isFalse (fun hc => by injection hc)
  | .error _, .ok _ => isFalse (fun hc => by injection hc)

/-- A concrete lead for the witnesses: modes value 10, self-energy 20,
modes-derived self-energy 30. -/
def lead0 : Lead := ⟨10, 20, 30⟩

/-- A second concrete lead for the witnesses. -/
def lead1 : Lead := ⟨11, 21, 31⟩

/-- A concrete finite system with two leads for the witnesses. -/
def syst0 : FinSystem :=
  { graph := 1, terms := 2, siteData := 3, leads := [lead0, lead1] }

/-- Concrete result system of `precalculate syst0 0 (some [0]) "all"`. -/
def res0a : PrecalcSystem :=
  { graph := 1, terms := 2, siteData := 3,
    leads := [Sum.inr { _modes := some 10, _selfenergy := some 30,
                        parameters := [] }, Sum.inl lead1] }

/-- Concrete operation log of `precalculate syst0 0 (some [0]) "all"`. -/
def log0a : List (Nat × LeadOp) := [(0, LeadOp.modesCall)]

/-- Concrete result system of `precalculate syst0 0 (some [0]) "modes"`. -/
def res0m : PrecalcSystem :=
  { graph := 1, terms := 2, siteData := 3,
    leads := [Sum.inr { _modes := some 10, _selfenergy := none,
                        parameters := [] }, Sum.inl lead1] }

/-- Concrete operation log of `precalculate syst0 0 (some [0]) "modes"`. -/
def log0m : List (Nat × LeadOp) := [(0, LeadOp.modesCall)]

/-! ### VectorizedSystem.site_ranges (src/kwant/system.py lines 623-631)

    site_offsets = np.cumsum([0] + [len(arr) for arr in self.site_arrays])
    norbs = [arr.family.norbs for arr in self.site_arrays] + [0]
    orb_offsets = np.cumsum(
        [0] + [len(arr) * arr.family.norbs for arr in self.site_arrays]
    )
    return np.array([site_offsets, norbs, orb_offsets]).transpose()

A site array is represented by the pair (length, family norbs); the claim
assumes every family has `norbs` declared.  The transpose of the three
equal-length rows is a list of triples. -/

/-- Embedding of `np.cumsum([0] + xs)`: running totals starting at 0, one
entry per prefix of `xs` (length `xs.length + 1`). -/
def cumsum0 (xs : List Nat) : List Nat :=
  List.scanl (fun a b => a + b) 0 xs

/-- Embedding of `VectorizedSystem.site_ranges`, over the list of
(length, norbs) pairs of the system's site arrays. -/
def site_ranges (arrs : List (Nat × Nat)) : List (Nat × Nat × Nat) :=
  let site_offsets := cumsum0 (arrs.map Prod.fst)
  let norbs := arrs.map Prod.snd ++ [0]
  let orb_offsets := cumsum0 (arrs.map (fun p => p.1 * p.2))
  List.zipWith (fun s no => (s, no.1, no.2)) site_offsets
    (List.zipWith (fun n o => (n, o)) norbs orb_offsets)

/-! ### InfiniteSystem.cell_hamiltonian / inter_cell_hopping
(src/kwant/system.py lines 906-927)

    cell_sites = range(self.cell_size)
    ... self.hamiltonian_submatrix(args, cell_sites, cell_sites, ...)

    interface_sites = range(self.cell_size, self.graph.num_nodes)
    ... self.hamiltonian_submatrix(args, cell_sites, interface_sites, ...)
-/

/-- Data of an `InfiniteSystem` used by `cell_hamiltonian` and
`inter_cell_hopping`: the cell size, the number of graph nodes, each site's
orbital count, and the Hamiltonian block entries (`hamEntry i j r c` is
entry `(r, c)` of the block coupling sites `i` and `j`). -/
structure InfSystem where
  cell_size : Nat
  num_nodes : Nat
  norbs : Nat → Nat
  hamEntry : Nat → Nat → Nat → Nat → Int

/-- Modelled from the spec: `hamiltonian_submatrix` is supplied by the
compiled extension module `kwant/_system` (not under src/).  Per the spec
it "assembles a (sparse or dense) block matrix over an arbitrary subset of
rows/columns by invoking per-pair or per-term evaluation and packing
results according to `site_ranges` offsets".  The dense result is modelled
as the concatenation of the Hamiltonian blocks of the listed row sites
against the listed column sites, each site `i` contributing `norbs i`
rows/columns. -/
def hamiltonian_submatrix (syst : InfSystem) (rows cols : List Nat) :
    List (List Int) :=
  rows.flatMap (fun i => (List.range (syst.norbs i)).map (fun r =>
    cols.flatMap (fun j => (List.range (syst.norbs j)).map
      (fun c => syst.hamEntry i j r c))))

/-- Total number of orbitals carried by the given sites. -/
def totalOrbs (syst : InfSystem) (sites : List Nat) : Nat :=
  (sites.map syst.norbs).sum

/-- Embedding of `InfiniteSystem.cell_hamiltonian`: the submatrix over
`range(self.cell_size)` as both rows and columns. -/
def cell_hamiltonian (syst : InfSystem) : List (List Int) :=
  hamiltonian_submatrix syst (List.range syst.cell_size)
    (List.range syst.cell_size)

/-- Embedding of `InfiniteSystem.inter_cell_hopping`: the submatrix with
rows `range(self.cell_size)` and columns
`range(self.cell_size, self.graph.num_nodes)`. -/
def inter_cell_hopping (syst : InfSystem) : List (List Int) :=
  hamiltonian_submatrix syst (List.range syst.cell_size)
    (List.range' syst.cell_size (syst.num_nodes - syst.cell_size))

/-- A concrete infinite system for the C8 witness: one cell site, one
interface site, one orbital per site. -/
def infSyst1 : InfSystem :=
  { cell_size := 1, num_nodes := 2, norbs := fun _ => 1,
    hamEntry := fun i j _ _ => 10 * (i : Int) + (j : Int) }

/-! ### InfiniteSystemMixin.modes, discrete-symmetry handling
(src/kwant/system.py lines 774-823)

    broken = set(symmetries.validate(ham) + symmetries.validate(hop))
    attribute_names = {'Conservation law': 'projectors',
                      'Time reversal': 'time_reversal',
                      'Particle-hole': 'particle-hole',
                      'Chiral': 'chiral'}
    for name in broken:
        warnings.warn('Hamiltonian breaks ' + name + ...)
        assert name in attribute_names, 'Inconsistent naming of symmetries'
        setattr(symmetries, attribute_names[name], None)
    ...
    if energy:
        symmetries.particle_hole = symmetries.chiral = None

Python `setattr` stores the value in the instance dictionary under exactly
the given string (any string is accepted); reading the `particle_hole`
attribute consults the key "particle_hole".  The descriptor state is
modelled as an association list from attribute name to whether the
attribute holds a symmetry (`true`) or `None` (`false`). -/

/-- Embedding of `setattr(obj, name, v)` on an attribute dictionary:
update the entry under exactly `name`, or append it if absent. -/
def setattrB (attrs : List (String × Bool)) (name : String) (v : Bool) :
    List (String × Bool) :=
  match attrs with
  | [] => [(name, v)]
  | (n, w) :: rest =>
    if n = name then (n, v) :: rest else (n, w) :: setattrB rest name v

/-- Attribute state of a `DiscreteSymmetry` descriptor on which all four
symmetries are initially present. -/
def allSymmetries : List (String × Bool) :=
  [("projectors", true), ("time_reversal", true),
   ("particle_hole", true), ("chiral", true)]

/-- Embedding of the `attribute_names` dictionary literal in
`InfiniteSystemMixin.modes` (the value mapped to by `'Particle-hole'` is
the hyphenated string `'particle-hole'` in the source). -/
def attributeNames : List (String × String) :=
  [("Conservation law", "projectors"), ("Time reversal", "time_reversal"),
   ("Particle-hole", "particle-hole"), ("Chiral", "chiral")]

/-- Embedding of the symmetry-disabling logic of
`InfiniteSystemMixin.modes`: for each broken symmetry name the code warns
and executes `setattr(symmetries, attribute_names[name], None)`; then,
when `energy` is nonzero, it assigns `None` to the `particle_hole` and
`chiral` attributes.  Returns the attribute state of the descriptor that
is finally passed to `physics.modes`. -/
def modes_symmetry_update (energy : Int) (broken : List String)
    (attrs : List (String × Bool)) : List (String × Bool) :=
  let attrs := broken.foldl
    (fun d name => setattrB d ((attributeNames.lookup name).getD name) false)
    attrs
  if energy ≠ 0 then
    setattrB (setattrB attrs "particle_hole" false) "chiral" false
  else attrs

/-- C1: the array branch of `in_fd` at the identity group element.  The code
computes the per-row AND of `coordinate != 0`, so on a one-site array whose
`which` row is the identity `(0,)` it returns `[false]`, while the `Site`
branch on the same element returns `true`; likewise a row all of whose
coordinates are nonzero is reported as inside the fundamental domain. -/
theorem C1_in_fd_array_at_identity :
    in_fd_array [[0]] = [false] ∧
    in_fd_site [0] = true ∧
    isIdentityElement [0] = true ∧
    in_fd_array [[1]] = [true] ∧
    isIdentityElement [1] = false := by
  decide

/-- C10: `NoSymmetry().subgroup(*generators)` never returns a value: with a
truthy generator it raises `ValueError` about nonempty generators, and
otherwise it raises `TypeError`, since the final statement passes the
generators tuple as a positional argument to `NoSymmetry`, which accepts no
constructor arguments. -/
theorem C10_noSymmetry_subgroup_always_fails (generators : List Bool) :
    noSymmetry_subgroup generators =
      (if generators.any id then
        Except.error (PyError.valueError "Generators must be empty for NoSymmetry.")
      else
        Except.error (PyError.typeError "NoSymmetry() takes no arguments")) ∧
    (noSymmetry_subgroup generators).isOk = false := by
  unfold noSymmetry_subgroup NoSymmetryCtor
  by_cases h : generators.any id = true <;> simp [h, Except.isOk, Except.toBool]

/-- C9: `InfiniteVectorizedSystem.hamiltonian_submatrix` raises `ValueError`
for every combination of arguments; it never returns a matrix. -/
theorem C9_infinite_submatrix_always_raises (args : List Int) (sparse : Bool)
    (return_norb : Bool) (params : Option (List (String × Int))) :
    infiniteVectorized_hamiltonian_submatrix args sparse return_norb params =
      Except.error (PyError.valueError infiniteSubmatrixMsg) ∧
    (infiniteVectorized_hamiltonian_submatrix args sparse return_norb params).isOk
      = false := by
  exact ⟨rfl, rfl⟩

/-- C6: constructing `PrecalculatedLead` with both values absent raises; with
only one value present, the accessor for that value returns exactly the
frozen value for arbitrary arguments, the accessor for the missing value
raises an availability error naming the `precalculate` modes that would have
supplied it, and `parameters` is the empty set. -/
theorem C6_precalculated_lead_contract :
    mkPrecalculatedLead none none =
      Except.error (PyError.valueError "No precalculated values provided.") ∧
    (∀ (m : ModesResult) (p : PrecalcLead),
      mkPrecalculatedLead (some m) none = Except.ok p →
      (∀ e params, p.modesAcc e params = Except.ok m) ∧
      (∀ e params, p.selfenergyAcc e params =
        Except.error (PyError.valueError noSelfenergyMsg)) ∧
      p.parameters = []) ∧
    (∀ (s : SelfEnergy) (p : PrecalcLead),
      mkPrecalculatedLead none (some s) = Except.ok p →
      (∀ e params, p.selfenergyAcc e params = Except.ok s) ∧
      (∀ e params, p.modesAcc e params =
        Except.error (PyError.valueError noModesMsg)) ∧
      p.parameters = []) ∧
    noSelfenergyMsg =
      "No precalculated selfenergy was provided. Consider using precalculate() with what=\x27selfenergy\x27 or what=\x27all\x27" ∧
    noModesMsg =
      "No precalculated modes were provided. Consider using precalculate() with what=\x27modes\x27 or what=\x27all\x27" := by
  refine ⟨rfl, ?_, ?_, rfl, rfl⟩
  · intro m p hp
    have : p = { _modes := some m, _selfenergy := none, parameters := [] } := by
      simpa [mkPrecalculatedLead] using hp.symm
    subst this
    exact ⟨fun e params => rfl, fun e params => rfl, rfl⟩
  · intro s p hp
    have : p = { _modes := none, _selfenergy := some s, parameters := [] } := by
      simpa [mkPrecalculatedLead] using hp.symm
    subst this
    exact ⟨fun e params => rfl, fun e params => rfl, rfl⟩

/-- Witness for C6 at a concrete construction. -/
theorem C6_precalculated_lead_contract_witness :
    (mkPrecalculatedLead (some 7) none = Except.ok
      { _modes := some 7, _selfenergy := none, parameters := [] }) ∧
    ({ _modes := some 7, _selfenergy := none,
       parameters := [] : PrecalcLead }.modesAcc 3 [] = Except.ok 7) := by
  refine ⟨rfl, ?_⟩
  exact ((C6_precalculated_lead_contract.2.1 7 _ rfl).1 3 [])

/-- C3: the broadcasting contract of `_normalize_matrix_blocks`.  A scalar
becomes `(N,1,1)` copies of itself; a length-`N` vector becomes its entries
as 1x1 blocks; a single `P`x`Q` matrix is tiled `N` times; an input already
of the exact expected shape passes through unchanged; any other shape is a
`ValueError` whose message ends with the name of the calling function when
one is supplied. -/
theorem C3_normalize_matrix_blocks
    (cf : Option String) :
    (∀ (x : Int) (n : Nat), 0 < n →
      normalize_matrix_blocks (.scalar x) (n, 1, 1) cf =
        Except.ok (List.replicate n [[x]])) ∧
    (∀ (xs : List Int) (n : Nat), 0 < n → xs.length = n →
      normalize_matrix_blocks (.vec xs) (n, 1, 1) cf =
        Except.ok (xs.map (fun x => [[x]]))) ∧
    (∀ (m : List (List Int)) (n p q : Nat), 0 < n →
      isRect2 m = true → mshape m = (p, q) →
      normalize_matrix_blocks (.mat m) (n, p, q) cf =
        Except.ok (List.replicate n m)) ∧
    (∀ (t : List (List (List Int))) (n p q : Nat),
      isRect3 t = true → t3shape t = (n, p, q) →
      normalize_matrix_blocks (.arr3 t) (n, p, q) cf =
        Except.ok t) ∧
    (∀ (blocks : NpInput) (expected : Nat × Nat × Nat) (f : String),
      t3shape (broadcastBlocks blocks expected.1).1 ≠ expected →
      ∃ pre : String,
        normalize_matrix_blocks blocks expected (some f) =
          Except.error (.valueError (pre ++ "when evaluating " ++ f))) := by
  refine ⟨?_, ?_, ?_, ?_, ?_⟩
  · intro x n hn
    obtain ⟨k, rfl⟩ : ∃ k, n = k + 1 := ⟨n - 1, (Nat.succ_pred_eq_of_pos hn).symm⟩
    have h : t3shape (List.replicate (k + 1) [[x]]) = (k + 1, 1, 1) := by
      simp [t3shape, List.replicate_succ]
    simp only [normalize_matrix_blocks, broadcastBlocks]
    rw [if_pos h]
  · intro xs n hn hlen
    cases xs with
    | nil => exact absurd (hlen ▸ hn) (by simp)
    | cons y ys =>
      have h : t3shape ((y :: ys).map (fun x => [[x]])) = (n, 1, 1) := by
        simp [t3shape, ← hlen]
      simp only [normalize_matrix_blocks, broadcastBlocks]
      rw [if_pos h]
  · intro m n p q hn hrect hsh
    obtain ⟨k, rfl⟩ : ∃ k, n = k + 1 := ⟨n - 1, (Nat.succ_pred_eq_of_pos hn).symm⟩
    have h1 : m.length = p := congrArg Prod.fst hsh
    have h2 : (m.headD []).length = q := congrArg (fun z => z.2) hsh
    have h : t3shape (List.replicate (k + 1) m) = (k + 1, p, q) := by
      simp only [t3shape, List.replicate_succ, List.headD_cons, List.length_cons,
        List.length_replicate, h1, h2]
    simp only [normalize_matrix_blocks, broadcastBlocks]
    rw [if_pos h]
  · intro t n p q hrect hsh
    simp only [normalize_matrix_blocks, broadcastBlocks]
    rw [if_pos hsh]
  · intro blocks expected f hne
    refine ⟨shapeErrPrefix expected (t3shape (broadcastBlocks blocks expected.1).1)
      (origShapeStr blocks) (broadcastBlocks blocks expected.1).2, ?_⟩
    simp only [normalize_matrix_blocks, if_neg hne]
    rfl

theorem precalcLeadStep_modes (lead : Lead) :
    precalcLeadStep "modes" lead =
      Except.ok
        ({ _modes := some lead.modesVal, _selfenergy := none,
           parameters := [] }, [LeadOp.modesCall]) := by
  rfl

theorem precalcLeadStep_selfenergy (lead : Lead) :
    precalcLeadStep "selfenergy" lead =
      Except.ok
        ({ _modes := none, _selfenergy := some lead.selfenergyVal,
           parameters := [] }, [LeadOp.selfenergyCall]) := by
  rfl

theorem precalcLeadStep_all (lead : Lead) :
    precalcLeadStep "all" lead =
      Except.ok
        ({ _modes := some lead.modesVal,
           _selfenergy := some lead.modesDerivedSelfenergy,
           parameters := [] }, [LeadOp.modesCall]) := by
  rfl

theorem precalcLoop_eq_loopPure (what : String)
    (f : Lead → PrecalcLead × List LeadOp)
    (hstep : ∀ lead, precalcLeadStep what lead = Except.ok (f lead)) :
    ∀ (ls : List Lead) (sel : List Nat) (nr : Nat),
      precalcLoop what sel nr ls = Except.ok (loopPure f sel nr ls) := by
  intro ls
  induction ls with
  | nil => intro sel nr; rfl
  | cons lead rest ih =>
    intro sel nr
    by_cases h : nr ∈ sel
    · simp only [precalcLoop, loopPure, if_pos h, hstep lead, ih sel (nr + 1)]
    · simp only [precalcLoop, loopPure, if_neg h, ih sel (nr + 1)]

theorem loopPure_length (f : Lead → PrecalcLead × List LeadOp)
    (sel : List Nat) :
    ∀ (ls : List Lead) (nr : Nat), (loopPure f sel nr ls).1.length = ls.length := by
  intro ls
  induction ls with
  | nil => intro nr; rfl
  | cons lead rest ih =>
    intro nr
    by_cases h : nr ∈ sel <;>
      simp [loopPure, h, ih (nr + 1)]

theorem loopPure_get (f : Lead → PrecalcLead × List LeadOp) (sel : List Nat) :
    ∀ (ls : List Lead) (nr k : Nat) (lead : Lead), ls.get? k = some lead →
      (loopPure f sel nr ls).1.get? k =
        some (if nr + k ∈ sel then Sum.inr (f lead).1 else Sum.inl lead) := by
  intro ls
  induction ls with
  | nil => intro nr k lead h; simp at h
  | cons l rest ih =>
    intro nr k lead h
    cases k with
    | zero =>
      simp only [List.get?_cons_zero, Option.some.injEq] at h
      subst h
      by_cases hmem : nr ∈ sel <;>
        simp [loopPure, hmem]
    | succ j =>
      simp only [List.get?_cons_succ] at h
      have := ih (nr + 1) j lead h
      by_cases hmem : nr ∈ sel <;>
        simpa [loopPure, hmem, Nat.add_assoc, Nat.add_comm 1 j] using this

theorem loopPure_log_mem (f : Lead → PrecalcLead × List LeadOp)
    (sel : List Nat) :
    ∀ (ls : List Lead) (nr : Nat) (x : Nat × LeadOp),
      x ∈ (loopPure f sel nr ls).2 ↔
      ∃ k lead, ls.get? k = some lead ∧ nr + k ∈ sel ∧
        x.1 = nr + k ∧ x.2 ∈ (f lead).2 := by
  intro ls
  induction ls with
  | nil => intro nr x; simp [loopPure]
  | cons l rest ih =>
    intro nr x
    by_cases hmem : nr ∈ sel
    · simp only [loopPure, if_pos hmem, List.mem_append, List.mem_map, ih (nr + 1)]
      constructor
      · rintro (⟨o, ho, rfl⟩ | ⟨k, lead, hk, hin, hx1, hx2⟩)
        · exact ⟨0, l, rfl, by simpa using hmem, by simp, by simpa using ho⟩
        · exact ⟨k + 1, lead, by simpa using hk,
            by simpa [Nat.add_assoc, Nat.add_comm 1 k] using hin,
            by simpa [Nat.add_assoc, Nat.add_comm 1 k] using hx1,
            hx2⟩
      · rintro ⟨k, lead, hk, hin, hx1, hx2⟩
        cases k with
        | zero =>
          left
          simp only [List.get?_cons_zero, Option.some.injEq] at hk
          subst hk
          refine ⟨x.2, by simpa using hx2, ?_⟩
          simp only [Nat.add_zero] at hx1
          exact Prod.ext hx1.symm rfl
        | succ j =>
          right
          exact ⟨j, lead, by simpa using hk,
            by simpa [Nat.add_assoc, Nat.add_comm 1 j] using hin,
            by simpa [Nat.add_assoc, Nat.add_comm 1 j] using hx1,
            hx2⟩
    · simp only [loopPure, if_neg hmem, ih (nr + 1)]
      constructor
      · rintro ⟨k, lead, hk, hin, hx1, hx2⟩
        exact ⟨k + 1, lead, by simpa using hk,
          by simpa [Nat.add_assoc, Nat.add_comm 1 k] using hin,
          by simpa [Nat.add_assoc, Nat.add_comm 1 k] using hx1,
          hx2⟩
      · rintro ⟨k, lead, hk, hin, hx1, hx2⟩
        cases k with
        | zero =>
          simp only [List.get?_cons_zero, Option.some.injEq] at hk
          subst hk
          simp only [Nat.add_zero] at hin
          exact absurd hin hmem
        | succ j =>
          exact ⟨j, lead, by simpa using hk,
            by simpa [Nat.add_assoc, Nat.add_comm 1 j] using hin,
            by simpa [Nat.add_assoc, Nat.add_comm 1 j] using hx1,
            hx2⟩

theorem precalculate_spec (syst : FinSystem) (energy : Int)
    (leadsSel : Option (List Nat)) (what : String)
    (f : Lead → PrecalcLead × List LeadOp)
    (hw : what = "modes" ∨ what = "selfenergy" ∨ what = "all")
    (hstep : ∀ lead, precalcLeadStep what lead = Except.ok (f lead)) :
    ∃ res log, precalculate syst energy leadsSel what = Except.ok (res, log) ∧
      res.graph = syst.graph ∧ res.terms = syst.terms ∧
      res.siteData = syst.siteData ∧
      res.leads.length = syst.leads.length ∧
      (∀ nr lead, syst.leads.get? nr = some lead →
        (nr ∈ leadsSel.getD (List.range syst.leads.length) →
          res.leads.get? nr = some (Sum.inr (f lead).1)) ∧
        (nr ∉ leadsSel.getD (List.range syst.leads.length) →
          res.leads.get? nr = some (Sum.inl lead))) ∧
      (∀ x : Nat × LeadOp, x ∈ log ↔ ∃ k lead,
        syst.leads.get? k = some lead ∧
        k ∈ leadsSel.getD (List.range syst.leads.length) ∧
        x.1 = k ∧ x.2 ∈ (f lead).2) := by
  refine ⟨{ graph := syst.graph, terms := syst.terms, siteData := syst.siteData,
            leads := (loopPure f (leadsSel.getD (List.range syst.leads.length))
              0 syst.leads).1 },
    (loopPure f (leadsSel.getD (List.range syst.leads.length)) 0 syst.leads).2,
    ?_, rfl, rfl, rfl, ?_, ?_, ?_⟩
  · simp only [precalculate, if_neg (not_not_intro hw),
      precalcLoop_eq_loopPure what f hstep]
  · exact loopPure_length f _ syst.leads 0
  · intro nr lead h
    have hg := loopPure_get f (leadsSel.getD (List.range syst.leads.length))
      syst.leads 0 nr lead h
    simp only [Nat.zero_add] at hg
    constructor
    · intro hmem; rw [hg, if_pos hmem]
    · intro hmem; rw [hg, if_neg hmem]
  · intro x
    have hl := loopPure_log_mem f (leadsSel.getD (List.range syst.leads.length))
      syst.leads 0 x
    simpa only [Nat.zero_add] using hl

/-- C5: on every valid `what` mode, `precalculate` returns a new system in
which only `leads` differs from the original: every selected lead entry is
replaced by a `PrecalculatedLead` (`Sum.inr`), every unselected entry is the
same lead object (`Sum.inl`), and the `graph`, `terms` and site-data fields
are shared by reference with the original (equal tokens).  The embedding is
a pure function of the original system, which is therefore left unchanged. -/
theorem C5_precalculate_shallow_copy (syst : FinSystem) (energy : Int)
    (leadsSel : Option (List Nat)) (what : String)
    (hw : what = "modes" ∨ what = "selfenergy" ∨ what = "all") :
    ∃ res log, precalculate syst energy leadsSel what = Except.ok (res, log) ∧
      res.graph = syst.graph ∧ res.terms = syst.terms ∧
      res.siteData = syst.siteData ∧
      res.leads.length = syst.leads.length ∧
      (∀ nr lead, syst.leads.get? nr = some lead →
        nr ∉ leadsSel.getD (List.range syst.leads.length) →
        res.leads.get? nr = some (Sum.inl lead)) ∧
      (∀ nr lead, syst.leads.get? nr = some lead →
        nr ∈ leadsSel.getD (List.range syst.leads.length) →
        ∃ p, res.leads.get? nr = some (Sum.inr p)) := by
  have main : ∀ (f : Lead → PrecalcLead × List LeadOp),
      (∀ lead, precalcLeadStep what lead = Except.ok (f lead)) →
      ∃ res log, precalculate syst energy leadsSel what = Except.ok (res, log) ∧
        res.graph = syst.graph ∧ res.terms = syst.terms ∧
        res.siteData = syst.siteData ∧
        res.leads.length = syst.leads.length ∧
        (∀ nr lead, syst.leads.get? nr = some lead →
          nr ∉ leadsSel.getD (List.range syst.leads.length) →
          res.leads.get? nr = some (Sum.inl lead)) ∧
        (∀ nr lead, syst.leads.get? nr = some lead →
          nr ∈ leadsSel.getD (List.range syst.leads.length) →
          ∃ p, res.leads.get? nr = some (Sum.inr p)) := by
    intro f hstep
    obtain ⟨res, log, h1, hg, ht, hs, hlen, hidx, _⟩ :=
      precalculate_spec syst energy leadsSel what f hw hstep
    refine ⟨res, log, h1, hg, ht, hs, hlen, ?_, ?_⟩
    · intro nr lead h hmem; exact (hidx nr lead h).2 hmem
    · intro nr lead h hmem; exact ⟨_, (hidx nr lead h).1 hmem⟩
  rcases hw with h | h | h <;> subst h
  · exact main _ precalcLeadStep_modes
  · exact main _ precalcLeadStep_selfenergy
  · exact main _ precalcLeadStep_all

/-- C4: the lead's own `selfenergy` operation is invoked only in the
`what == 'selfenergy'` mode; with `what == 'all'` every selected lead's
modes are computed through the lead's `modes` operation and the stored
self-energy is the one derived from the modes result
(`modes[1].selfenergy()`), with no direct `selfenergy` call on any lead. -/
theorem C4_precalculate_selfenergy_from_modes (syst : FinSystem)
    (energy : Int) (leadsSel : Option (List Nat)) :
    (∀ what res log,
      precalculate syst energy leadsSel what = Except.ok (res, log) →
      ∀ nr, (nr, LeadOp.selfenergyCall) ∈ log → what = "selfenergy") ∧
    (∀ res log,
      precalculate syst energy leadsSel "all" = Except.ok (res, log) →
      (∀ nr, (nr, LeadOp.selfenergyCall) ∉ log) ∧
      (∀ nr lead, syst.leads.get? nr = some lead →
        nr ∈ leadsSel.getD (List.range syst.leads.length) →
        (nr, LeadOp.modesCall) ∈ log ∧
        res.leads.get? nr = some (Sum.inr
          { _modes := some lead.modesVal,
            _selfenergy := some lead.modesDerivedSelfenergy,
            parameters := [] }))) := by
  constructor
  · intro what res log hok nr hmem
    by_cases hv : what = "modes" ∨ what = "selfenergy" ∨ what = "all"
    · rcases hv with h | h | h
      · subst h
        obtain ⟨res2, log2, h1, _, _, _, _, _, hlog⟩ :=
          precalculate_spec syst energy leadsSel "modes" _ (Or.inl rfl)
            precalcLeadStep_modes
        have heq : log = log2 := by
          have h2 := h1.symm.trans hok
          simp only [Except.ok.injEq, Prod.mk.injEq] at h2
          exact h2.2.symm
        subst heq
        obtain ⟨k, lead, _, _, _, hop⟩ := (hlog _).1 hmem
        simp at hop
      · exact h
      · subst h
        obtain ⟨res2, log2, h1, _, _, _, _, _, hlog⟩ :=
          precalculate_spec syst energy leadsSel "all" _
            (Or.inr (Or.inr rfl)) precalcLeadStep_all
        have heq : log = log2 := by
          have h2 := h1.symm.trans hok
          simp only [Except.ok.injEq, Prod.mk.injEq] at h2
          exact h2.2.symm
        subst heq
        obtain ⟨k, lead, _, _, _, hop⟩ := (hlog _).1 hmem
        simp at hop
    · exfalso
      rw [precalculate, if_pos hv] at hok
      exact Except.noConfusion hok
  · intro res log hok
    obtain ⟨res2, log2, h1, _, _, _, _, hidx, hlog⟩ :=
      precalculate_spec syst energy leadsSel "all" _
        (Or.inr (Or.inr rfl)) precalcLeadStep_all
    have heq : res = res2 ∧ log = log2 := by
      have h2 := h1.symm.trans hok
      simp only [Except.ok.injEq, Prod.mk.injEq] at h2
      exact ⟨h2.1.symm, h2.2.symm⟩
    obtain ⟨rfl, rfl⟩ := heq
    constructor
    · intro nr hmem
      obtain ⟨k, lead, _, _, _, hop⟩ := (hlog _).1 hmem
      simp at hop
    · intro nr lead h hmem
      refine ⟨?_, (hidx nr lead h).1 hmem⟩
      exact (hlog _).2 ⟨nr, lead, h, hmem, rfl, by simp⟩

/-- Witness for C4 at a concrete two-lead system with lead 0 selected. -/
theorem C4_precalculate_selfenergy_from_modes_witness :
    precalculate syst0 0 (some [0]) "all" = Except.ok (res0a, log0a) ∧
    (0, LeadOp.selfenergyCall) ∉ log0a ∧
    (1, LeadOp.selfenergyCall) ∉ log0a ∧
    (0, LeadOp.modesCall) ∈ log0a ∧
    res0a.leads.get? 0 = some (Sum.inr
      { _modes := some lead0.modesVal,
        _selfenergy := some lead0.modesDerivedSelfenergy,
        parameters := [] }) := by
  have hconc : precalculate syst0 0 (some [0]) "all" =
      Except.ok (res0a, log0a) := by decide
  have h := (C4_precalculate_selfenergy_from_modes syst0 0 (some [0])).2
    res0a log0a hconc
  exact ⟨hconc, h.1 0, h.1 1, (h.2 0 lead0 rfl (by decide)).1,
    (h.2 0 lead0 rfl (by decide)).2⟩

/-- Witness for C5 at a concrete two-lead system with lead 0 selected. -/
theorem C5_precalculate_shallow_copy_witness :
    precalculate syst0 0 (some [0]) "modes" = Except.ok (res0m, log0m) ∧
    res0m.graph = syst0.graph ∧ res0m.terms = syst0.terms ∧
    res0m.siteData = syst0.siteData ∧
    res0m.leads.get? 1 = some (Sum.inl lead1) := by
  obtain ⟨res, log, h1, hg, ht, hs, _, hunsel, _⟩ :=
    C5_precalculate_shallow_copy syst0 0 (some [0]) "modes" (Or.inl rfl)
  have hconc : precalculate syst0 0 (some [0]) "modes" =
      Except.ok (res0m, log0m) := by decide
  have heq : res = res0m ∧ log = log0m := by
    have := h1.symm.trans hconc
    simp only [Except.ok.injEq, Prod.mk.injEq] at this
    exact this
  obtain ⟨rfl, rfl⟩ := heq
  exact ⟨hconc, hg, ht, hs, hunsel 1 lead1 rfl (by decide)⟩

theorem scanl_add_get (xs : List Nat) :
    ∀ (init k : Nat), k ≤ xs.length →
      (List.scanl (fun a b => a + b) init xs).get? k =
        some (init + (xs.take k).sum) := by
  induction xs with
  | nil =>
    intro init k hk
    have hk0 : k = 0 := Nat.le_zero.mp hk
    subst hk0
    simp [List.scanl]
  | cons x xs ih =>
    intro init k hk
    cases k with
    | zero => simp [List.scanl]
    | succ j =>
      have hj : j ≤ xs.length := Nat.le_of_succ_le_succ hk
      have hih := ih (init + x) j hj
      simp only [List.scanl, List.get?_cons_succ, hih, List.take_succ_cons,
        List.sum_cons, Option.some.injEq]
      omega

theorem zipWith_get {α β γ : Type} (f : α → β → γ) :
    ∀ (as : List α) (bs : List β) (k : Nat) (a : α) (b : β),
      as.get? k = some a → bs.get? k = some b →
      (List.zipWith f as bs).get? k = some (f a b) := by
  intro as
  induction as with
  | nil => intro bs k a b h _; simp at h
  | cons x xs ih =>
    intro bs k a b ha hb
    cases bs with
    | nil => simp at hb
    | cons y ys =>
      cases k with
      | zero =>
        simp only [List.get?_cons_zero, Option.some.injEq] at ha hb
        subst ha; subst hb; rfl
      | succ j =>
        simp only [List.get?_cons_succ] at ha hb
        simpa [List.zipWith] using ih ys j a b ha hb

/-- C7: `site_ranges` has one row per site array plus a sentinel: row `k`
is (sites before array `k`, norbs of array `k`, orbitals before array `k`),
and the final row is (total sites, 0, total orbitals). -/
theorem C7_site_ranges (arrs : List (Nat × Nat)) :
    (site_ranges arrs).length = arrs.length + 1 ∧
    (∀ k a, arrs.get? k = some a →
      (site_ranges arrs).get? k = some
        (((arrs.take k).map Prod.fst).sum, a.2,
          ((arrs.take k).map (fun p => p.1 * p.2)).sum)) ∧
    (site_ranges arrs).get? arrs.length = some
      ((arrs.map Prod.fst).sum, 0, (arrs.map (fun p => p.1 * p.2)).sum) := by
  refine ⟨?_, ?_, ?_⟩
  · simp [site_ranges, cumsum0, List.length_zipWith, List.length_scanl]
  · intro k a hk
    have hklt : k < arrs.length := by
      by_contra hnk
      push_neg at hnk
      rw [List.get?_eq_none.mpr (by simpa using hnk)] at hk
      exact Option.noConfusion hk
    have hs : (cumsum0 (arrs.map Prod.fst)).get? k =
        some (((arrs.take k).map Prod.fst).sum) := by
      have h := scanl_add_get (arrs.map Prod.fst) 0 k
        (by simpa using Nat.le_of_lt hklt)
      simpa [cumsum0, List.map_take] using h
    have hn : (arrs.map Prod.snd ++ [0]).get? k = some a.2 := by
      rw [List.get?_append (by simpa using hklt), List.get?_map, hk]
      rfl
    have ho : (cumsum0 (arrs.map (fun p => p.1 * p.2))).get? k =
        some (((arrs.take k).map (fun p => p.1 * p.2)).sum) := by
      have h := scanl_add_get (arrs.map (fun p => p.1 * p.2)) 0 k
        (by simpa using Nat.le_of_lt hklt)
      simpa [cumsum0, List.map_take] using h
    have hz := zipWith_get (fun n o => (n, o)) (arrs.map Prod.snd ++ [0])
      (cumsum0 (arrs.map (fun p => p.1 * p.2))) k _ _ hn ho
    have hmain := zipWith_get (fun s no => (s, no.1, no.2))
      (cumsum0 (arrs.map Prod.fst)) _ k _ _ hs hz
    simpa [site_ranges] using hmain
  · have hs : (cumsum0 (arrs.map Prod.fst)).get? arrs.length =
        some ((arrs.map Prod.fst).sum) := by
      have h := scanl_add_get (arrs.map Prod.fst) 0 arrs.length (by simp)
      simpa [cumsum0, List.take_of_length_le (le_of_eq (List.length_map _ _))]
        using h
    have hn : (arrs.map Prod.snd ++ [0]).get? arrs.length = some 0 := by
      rw [List.get?_append_right (by simp)]
      simp
    have ho : (cumsum0 (arrs.map (fun p => p.1 * p.2))).get? arrs.length =
        some ((arrs.map (fun p => p.1 * p.2)).sum) := by
      have h := scanl_add_get (arrs.map (fun p => p.1 * p.2)) 0 arrs.length
        (by simp)
      simpa [cumsum0, List.take_of_length_le (le_of_eq (List.length_map _ _))]
        using h
    have hz := zipWith_get (fun n o => (n, o)) (arrs.map Prod.snd ++ [0])
      (cumsum0 (arrs.map (fun p => p.1 * p.2))) arrs.length _ _ hn ho
    have hmain := zipWith_get (fun s no => (s, no.1, no.2))
      (cumsum0 (arrs.map Prod.fst)) _ arrs.length _ _ hs hz
    simpa [site_ranges] using hmain

/-- Witness for C7 on a system of two site arrays: two sites with 3
orbitals each, then one site with 5 orbitals. -/
theorem C7_site_ranges_witness :
    site_ranges [(2, 3), (1, 5)] = [(0, 3, 0), (2, 5, 6), (3, 0, 11)] ∧
    (site_ranges [(2, 3), (1, 5)]).get? 1 = some (2, 5, 6) := by
  refine ⟨by decide, ?_⟩
  have h := (C7_site_ranges [(2, 3), (1, 5)]).2.1 1 (1, 5) (by decide)
  rw [h]
  decide

theorem hamiltonian_submatrix_num_rows (syst : InfSystem)
    (rows cols : List Nat) :
    (hamiltonian_submatrix syst rows cols).length = totalOrbs syst rows := by
  unfold hamiltonian_submatrix totalOrbs
  rw [List.length_flatMap]
  refine congrArg List.sum (List.map_congr_left ?_)
  intro i _
  simp

theorem hamiltonian_submatrix_row_len (syst : InfSystem)
    (rows cols : List Nat) :
    ∀ row ∈ hamiltonian_submatrix syst rows cols,
      row.length = totalOrbs syst cols := by
  intro row hrow
  simp only [hamiltonian_submatrix, List.mem_flatMap, List.mem_map] at hrow
  obtain ⟨i, _, r, _, rfl⟩ := hrow
  unfold totalOrbs
  rw [List.length_flatMap]
  refine congrArg List.sum (List.map_congr_left ?_)
  intro j _
  simp

/-- C8: `cell_hamiltonian` is the Hamiltonian submatrix with rows and
columns both over sites `0..cell_size-1` and is square of size the total
cell orbitals; `inter_cell_hopping` is the submatrix with rows over the
cell sites and columns over sites `cell_size..num_nodes-1`, of shape
(total cell orbitals) x (total interface orbitals). -/
theorem C8_cell_hamiltonian_inter_cell_hopping (syst : InfSystem) :
    cell_hamiltonian syst =
      hamiltonian_submatrix syst (List.range syst.cell_size)
        (List.range syst.cell_size) ∧
    inter_cell_hopping syst =
      hamiltonian_submatrix syst (List.range syst.cell_size)
        (List.range' syst.cell_size (syst.num_nodes - syst.cell_size)) ∧
    (cell_hamiltonian syst).length =
      totalOrbs syst (List.range syst.cell_size) ∧
    (∀ row ∈ cell_hamiltonian syst,
      row.length = totalOrbs syst (List.range syst.cell_size)) ∧
    (inter_cell_hopping syst).length =
      totalOrbs syst (List.range syst.cell_size) ∧
    (∀ row ∈ inter_cell_hopping syst,
      row.length = totalOrbs syst
        (List.range' syst.cell_size (syst.num_nodes - syst.cell_size))) := by
  exact ⟨rfl, rfl,
    hamiltonian_submatrix_num_rows syst _ _,
    hamiltonian_submatrix_row_len syst _ _,
    hamiltonian_submatrix_num_rows syst _ _,
    hamiltonian_submatrix_row_len syst _ _⟩

/-- Witness for C8 on `infSyst1`. -/
theorem C8_cell_hamiltonian_inter_cell_hopping_witness :
    cell_hamiltonian infSyst1 = [[0]] ∧
    inter_cell_hopping infSyst1 = [[1]] ∧
    ([0] : List Int).length = totalOrbs infSyst1 (List.range 1) ∧
    ([1] : List Int).length = totalOrbs infSyst1 (List.range' 1 1) := by
  have h := C8_cell_hamiltonian_inter_cell_hopping infSyst1
  refine ⟨rfl, rfl, ?_, ?_⟩
  · exact h.2.2.2.1 [0] (by decide)
  · exact h.2.2.2.2.2 [1] (by decide)

/-- C2: evaluation of the symmetry-disabling logic.  When the validator
reports `'Particle-hole'` broken at zero energy, the `particle_hole`
attribute read by the mode solver is still enabled (the `setattr` writes
the fresh key `'particle-hole'` instead, because of the hyphenated entry in
`attribute_names`), so the broken symmetry is not disabled; a broken
`'Chiral'` symmetry is disabled as intended, and a nonzero energy disables
`particle_hole` and `chiral` unconditionally. -/
theorem C2_modes_particle_hole_not_disabled :
    (modes_symmetry_update 0 ["Particle-hole"] allSymmetries).lookup
      "particle_hole" = some true ∧
    (modes_symmetry_update 0 ["Particle-hole"] allSymmetries).lookup
      "particle-hole" = some false ∧
    (modes_symmetry_update 0 ["Chiral"] allSymmetries).lookup
      "chiral" = some false ∧
    (modes_symmetry_update 0 ["Conservation law"] allSymmetries).lookup
      "projectors" = some false ∧
    (modes_symmetry_update 0 ["Time reversal"] allSymmetries).lookup
      "time_reversal" = some false ∧
    (modes_symmetry_update 5 [] allSymmetries).lookup
      "particle_hole" = some false ∧
    (modes_symmetry_update 5 [] allSymmetries).lookup
      "chiral" = some false := by
  decide

/-- Witness for C3 at the concrete inputs of the spec's examples: scalar 5
against (3,1,1); vector [1,2,3] against (3,1,1); the 2x2 identity against
(4,2,2); an exact-shape (2,1,1) input; and the mismatched 2x2 matrix
against (3,2,3) with calling function "f". -/
theorem C3_normalize_matrix_blocks_witness :
    normalize_matrix_blocks (.scalar 5) (3, 1, 1) none =
      Except.ok (List.replicate 3 [[5]]) ∧
    normalize_matrix_blocks (.vec [1, 2, 3]) (3, 1, 1) none =
      Except.ok ([1, 2, 3].map (fun x => [[x]])) ∧
    normalize_matrix_blocks (.mat [[1, 0], [0, 1]]) (4, 2, 2) none =
      Except.ok (List.replicate 4 [[1, 0], [0, 1]]) ∧
    normalize_matrix_blocks (.arr3 [[[7]], [[8]]]) (2, 1, 1) none =
      Except.ok [[[7]], [[8]]] ∧
    (∃ pre : String,
      normalize_matrix_blocks (.mat [[1, 0], [0, 1]]) (3, 2, 3) (some "f") =
        Except.error (.valueError (pre ++ "when evaluating " ++ "f"))) := by
  refine ⟨(C3_normalize_matrix_blocks none).1 5 3 (by decide),
    (C3_normalize_matrix_blocks none).2.1 [1, 2, 3] 3 (by decide) (by decide),
    (C3_normalize_matrix_blocks none).2.2.1 [[1, 0], [0, 1]] 4 2 2
      (by decide) (by decide) (by decide),
    (C3_normalize_matrix_blocks none).2.2.2.1 [[[7]], [[8]]] 2 1 1
      (by decide) (by decide),
    (C3_normalize_matrix_blocks none).2.2.2.2 (.mat [[1, 0], [0, 1]])
      (3, 2, 3) "f" (by decide)⟩

end KwantSystem
